import Mathlib

/-!
Verification of the generation core of the `tool-video-veo3` repository.

The development shallowly embeds the pure control-flow of the Python source:

* `src/core/generators/base_generator.py` — `BaseGenerator.retry_on_error`
* `src/core/generators/text_to_video.py` — `_send_generation_request`,
  `check_operation_status`
* `src/core/managers/scene_manager.py` — `apply_global_template`,
  `generate_scene_sequence`, the chaining decision of `generate_single_scene`,
  and the timestamp computation of `extract_last_frame`
* `src/utils/video_merger.py` — `validate_videos_compatible`,
  `extract_last_frame`

Conventions of the embedding:

* The behaviour of an effectful callee (the API request, the backend poll) is
  an oracle `Nat → Except String A`: what the callee does on its k-th
  invocation (`.error` models a raised exception, with the exception's
  message).
* Python `float` values coming from `ffprobe` (durations, frame rates) are
  modelled as rationals `ℚ`; the claims under study only involve comparisons
  whose outcome agrees between `ℚ` and IEEE doubles at the inputs considered.
* Loops are modelled by structural recursion on the number of remaining
  iterations, so every definition is executable and every concrete run can be
  settled by `decide` or `rfl`.
-/

/-! ## RetryPolicy: `BaseGenerator.retry_on_error` (base_generator.py lines 94-139)

The Python loop is

```
last_exception = None
for attempt in range(max_retries):
    try:
        result = await func(*args, **kwargs)
        return result
    except Exception as e:
        last_exception = e
        if attempt < max_retries - 1:
            delay = self.retry_delay * (attempt + 1)
            await asyncio.sleep(delay)
raise last_exception
```

We record the complete observable trace of one call: how many times `func`
was invoked, every sleep performed (as `(attemptIndex, delaySeconds)` pairs),
and the final outcome.  `outcome = .error none` models `raise None`, i.e. the
`last_exception = None` sentinel being raised (which Python surfaces as a
`TypeError` rather than a domain error). -/

structure RetryTrace (α : Type) where
  calls : Nat
  sleeps : List (Nat × Nat)
  outcome : Except (Option String) α
  deriving Repr

/-- One pass of the `for attempt in range(max_retries)` loop, by structural
recursion on the number of remaining iterations (`remaining = max_retries -
attempt` at every call site). -/
def retryGo {α : Type} (func : Nat → Except String α) (retry_delay : Nat)
    (max_retries : Nat) : Nat → Nat → Option String → RetryTrace α
  | attempt, remaining + 1, _last =>
    match func attempt with
    | .ok v => { calls := attempt + 1, sleeps := [], outcome := .ok v }
    | .error e =>
      let rest := retryGo func retry_delay max_retries (attempt + 1) remaining (some e)
      if attempt + 1 < max_retries then
        { rest with sleeps := (attempt, retry_delay * (attempt + 1)) :: rest.sleeps }
      else
        rest
  | attempt, 0, last => { calls := attempt, sleeps := [], outcome := .error last }

/-- `BaseGenerator.retry_on_error`.  `max_retries` is an integer because the
Python caller may pass any int; `range(n)` is empty for `n ≤ 0`, which is
exactly `Int.toNat`. -/
def retry_on_error {α : Type} (func : Nat → Except String α) (retry_delay : Nat)
    (max_retries : Int) : RetryTrace α :=
  retryGo func retry_delay max_retries.toNat 0 max_retries.toNat none

/-! Helper lemmas about `retryGo` when every attempt fails. -/

theorem retryGo_calls_all_fail {α : Type} (errs : Nat → String) (d maxR : Nat) :
    ∀ remaining attempt last,
      (retryGo (α := α) (fun k => .error (errs k)) d maxR attempt remaining last).calls
        = attempt + remaining := by
  intro remaining
  induction remaining with
  | zero => intro attempt last; rfl
  | succ r ih =>
    intro attempt last
    show (if attempt + 1 < maxR then _ else _ : RetryTrace α).calls = _
    by_cases h : attempt + 1 < maxR
    · simp only [if_pos h]
      have := ih (attempt + 1) (some (errs attempt))
      simpa [Nat.add_assoc, Nat.add_comm 1 r] using this
    · simp only [if_neg h]
      have := ih (attempt + 1) (some (errs attempt))
      simpa [Nat.add_assoc, Nat.add_comm 1 r] using this

theorem retryGo_outcome_all_fail {α : Type} (errs : Nat → String) (d maxR : Nat) :
    ∀ remaining attempt last, 1 ≤ remaining →
      (retryGo (α := α) (fun k => .error (errs k)) d maxR attempt remaining last).outcome
        = .error (some (errs (attempt + remaining - 1))) := by
  intro remaining
  induction remaining with
  | zero => intro attempt last h; omega
  | succ r ih =>
    intro attempt last _
    show (if attempt + 1 < maxR then _ else _ : RetryTrace α).outcome = _
    rcases Nat.eq_zero_or_pos r with hr | hr
    · subst hr
      by_cases h : attempt + 1 < maxR <;> simp [if_pos, if_neg, h, retryGo]
    · have hrec := ih (attempt + 1) (some (errs attempt)) hr
      have harith : attempt + 1 + r - 1 = attempt + (r + 1) - 1 := by omega
      by_cases h : attempt + 1 < maxR
      · simp only [if_pos h]
        rw [hrec, harith]
      · simp only [if_neg h]
        rw [hrec, harith]

/-- C3 — For every `maxAttempts n ≥ 1` and every operation that fails on every
attempt, `retry_on_error` invokes the operation exactly `n` times and the
error it finally raises is the error of the last (n-th) attempt. -/
theorem retry_all_fail_count_and_last_error {α : Type} (errs : Nat → String)
    (d : Nat) (n : Nat) (h : 1 ≤ n) :
    (retry_on_error (α := α) (fun k => .error (errs k)) d (n : Int)).calls = n ∧
    (retry_on_error (α := α) (fun k => .error (errs k)) d (n : Int)).outcome
      = .error (some (errs (n - 1))) := by
  have htn : ((n : Int)).toNat = n := Int.toNat_natCast n
  constructor
  · unfold retry_on_error
    rw [htn]
    simpa using retryGo_calls_all_fail (α := α) errs d n n 0 none
  · unfold retry_on_error
    rw [htn]
    simpa using retryGo_outcome_all_fail (α := α) errs d n n 0 none h

/-- Witness for C3 at `n = 3`: three invocations, the raised error is the
third attempt's error. -/
theorem retry_all_fail_count_and_last_error_witness :
    (retry_on_error (α := Unit) (fun k => .error (toString k)) 2 3).calls = 3 ∧
    (retry_on_error (α := Unit) (fun k => .error (toString k)) 2 3).outcome
      = .error (some "2") := by
  have h := retry_all_fail_count_and_last_error (α := Unit)
    (fun k => toString k) 2 3 (by decide)
  exact ⟨h.1, h.2⟩

/-- Every sleep recorded in the trace sleeps `retry_delay * (attemptIndex + 1)`
seconds, occurs only for a failing attempt that is followed by another one
(`attemptIndex + 1 < max_retries`), in particular never after the final
attempt.  Stated over `retryGo` with the loop invariant
`attempt + remaining = max_retries`. -/
theorem retryGo_sleeps_sound {α : Type} (func : Nat → Except String α)
    (d maxR : Nat) :
    ∀ remaining attempt last k δ, attempt + remaining = maxR →
      (k, δ) ∈ (retryGo func d maxR attempt remaining last).sleeps →
      δ = d * (k + 1) ∧ k + 1 < maxR ∧ ∃ e, func k = .error e := by
  intro remaining
  induction remaining with
  | zero =>
    intro attempt last k δ _ hmem
    simp [retryGo] at hmem
  | succ r ih =>
    intro attempt last k δ hinv hmem
    rw [retryGo] at hmem
    cases hfunc : func attempt with
    | ok v => rw [hfunc] at hmem; simp at hmem
    | error e =>
      rw [hfunc] at hmem
      by_cases hlt : attempt + 1 < maxR
      · simp only [if_pos hlt, List.mem_cons] at hmem
        rcases hmem with hhead | htail
        · simp only [Prod.mk.injEq] at hhead
          obtain ⟨hk, hδ⟩ := hhead
          subst hk; subst hδ
          exact ⟨rfl, hlt, ⟨e, hfunc⟩⟩
        · exact ih (attempt + 1) (some e) k δ (by omega) htail
      · simp only [if_neg hlt] at hmem
        exact ih (attempt + 1) (some e) k δ (by omega) hmem

/-- Conversely: if every attempt up to `k` fails and attempt `k` is followed
by another attempt, then the trace contains the sleep
`(k, d * (k + 1))`. -/
theorem retryGo_sleeps_complete {α : Type} (func : Nat → Except String α)
    (d maxR : Nat) :
    ∀ remaining attempt last k, attempt + remaining = maxR → attempt ≤ k →
      k + 1 < maxR →
      (∀ j, attempt ≤ j → j ≤ k → ∃ e, func j = .error e) →
      (k, d * (k + 1)) ∈ (retryGo func d maxR attempt remaining last).sleeps := by
  intro remaining
  induction remaining with
  | zero =>
    intro attempt last k hinv hak hk _
    omega
  | succ r ih =>
    intro attempt last k hinv hak hk hfail
    obtain ⟨e, he⟩ := hfail attempt (Nat.le_refl _) hak
    rw [retryGo, he]
    have hlt : attempt + 1 < maxR := by omega
    simp only [if_pos hlt, List.mem_cons]
    rcases Nat.eq_or_lt_of_le hak with heq | hlt2
    · left
      rw [← heq]
    · right
      exact ih (attempt + 1) (some e) k (by omega) (by omega) hk
        (fun j hj1 hj2 => hfail j (by omega) hj2)

/-- C4 — The delay slept after a failing 0-based attempt `k` that is followed
by another attempt equals `retry_delay * (k + 1)`, and no sleep occurs after
the final attempt (every recorded sleep has `k + 1 < maxAttempts`); whenever
attempts `0..k` all fail and `k` is not the final attempt, that sleep is
actually performed. -/
theorem retry_backoff_linear {α : Type} (func : Nat → Except String α)
    (d : Nat) (n : Int) :
    (∀ k δ, (k, δ) ∈ (retry_on_error func d n).sleeps →
      δ = d * (k + 1) ∧ k + 1 < n.toNat ∧ ∃ e, func k = .error e) ∧
    (∀ k, k + 1 < n.toNat → (∀ j, j ≤ k → ∃ e, func j = .error e) →
      (k, d * (k + 1)) ∈ (retry_on_error func d n).sleeps) := by
  constructor
  · intro k δ hmem
    exact retryGo_sleeps_sound func d n.toNat n.toNat 0 none k δ (by omega) hmem
  · intro k hk hfail
    exact retryGo_sleeps_complete func d n.toNat n.toNat 0 none k (by omega)
      (Nat.zero_le k) hk (fun j _ hj => hfail j hj)

/-- Witness for C4 with `retry_delay = 2`, `maxAttempts = 3` and an
always-failing operation: the sleeps are exactly `[(0, 2), (1, 4)]` — linear
backoff, and none after the final attempt (index 2). -/
theorem retry_backoff_linear_witness :
    (0, 2) ∈ (retry_on_error (α := Unit) (fun _ => .error "boom") 2 3).sleeps ∧
    (1, 4) ∈ (retry_on_error (α := Unit) (fun _ => .error "boom") 2 3).sleeps ∧
    (retry_on_error (α := Unit) (fun _ => .error "boom") 2 3).sleeps
      = [(0, 2), (1, 4)] := by
  have h := retry_backoff_linear (α := Unit) (fun _ => .error "boom") 2 3
  refine ⟨?_, ?_, rfl⟩
  · exact h.2 0 (by decide) (fun j _ => ⟨"boom", rfl⟩)
  · exact h.2 1 (by decide) (fun j _ => ⟨"boom", rfl⟩)

/-- C10 — With a non-positive `max_retries` the loop body is skipped: the
wrapped operation is never invoked, and the final `raise last_exception`
raises the initial `None` sentinel (`outcome = .error none`), which Python
surfaces as a `TypeError` rather than any domain error or result. -/
theorem retry_nonpositive_never_invokes {α : Type} (func : Nat → Except String α)
    (d : Nat) (m : Int) (h : m ≤ 0) :
    (retry_on_error func d m).calls = 0 ∧
    (retry_on_error func d m).outcome = .error none := by
  unfold retry_on_error
  rw [Int.toNat_of_nonpos h]
  exact ⟨rfl, rfl⟩

/-- Witness for C10 at `max_retries = 0`, with an operation that would succeed
if it were ever invoked: zero invocations, the `None` sentinel is raised. -/
theorem retry_nonpositive_never_invokes_witness :
    (retry_on_error (α := Unit) (fun _ => .ok ()) 2 0).calls = 0 ∧
    (retry_on_error (α := Unit) (fun _ => .ok ()) 2 0).outcome = .error none :=
  retry_nonpositive_never_invokes (fun _ => .ok ()) 2 0 (by decide)

/-! ## Submission: `TextToVideoGenerator._send_generation_request`
(text_to_video.py lines 370-407)

```
try:
    result = await self.retry_on_error(self._make_api_request, prompt, model, config)
    operation_id = result.get('operation_id')
    if not operation_id:
        raise GenerationError("No operation_id in response")
    return operation_id
except Exception as e:
    if 'quota' in str(e).lower() or 'limit' in str(e).lower():
        raise APIQuotaExceededError(str(e))
    raise GenerationError(f"Failed to send request: " + str(e))
```

(The generator is constructed with `max_retries = 3` and `retry_delay = 2`
inherited from `BaseGenerator.__init__`.) -/

/-- `leadMatch p l` — `p` is an initial run of `l` (character by character). -/
def leadMatch : List Char → List Char → Bool
  | [], _ => true
  | _ :: _, [] => false
  | p :: ps, c :: cs => p == c && leadMatch ps cs

/-- `subMatch p l` — `p` occurs contiguously somewhere inside `l`.  Models the
Python substring test `p in l`. -/
def subMatch (pat : List Char) : List Char → Bool
  | [] => leadMatch pat []
  | c :: rest => leadMatch pat (c :: rest) || subMatch pat rest

/-- `str.lower()` at the character level (kernel-reducible, unlike
`String.toLower`). -/
def lowerChars (s : String) : List Char :=
  s.toList.map Char.toLower

/-- `'quota' in str(e).lower() or 'limit' in str(e).lower()`. -/
def isQuotaMsg (s : String) : Bool :=
  subMatch "quota".toList (lowerChars s) || subMatch "limit".toList (lowerChars s)

/-- The dict returned by `_make_api_request` (only the field the submission
path reads). -/
structure ApiResponse where
  operation_id : Option String
  deriving Repr

/-- The two exception classes `_send_generation_request` can raise. -/
inductive SendError where
  | quotaExceeded (msg : String)
  | generationError (msg : String)
  deriving Repr, DecidableEq

/-- The `except Exception as e` classifier of `_send_generation_request`. -/
def classifySendFailure (e : String) : SendError :=
  if isQuotaMsg e then .quotaExceeded e
  else .generationError ("Failed to send request: " ++ e)

/-- `_send_generation_request`, returning the number of times the underlying
API request was invoked together with the final result.  `request` is the
behaviour of `_make_api_request` on its k-th invocation.  The `.error none`
branch of the retry trace (the `raise None` sentinel) is unreachable here
because `max_retries = 3`, but is mapped to the message of the `TypeError`
Python would produce. -/
def send_generation_request (request : Nat → Except String ApiResponse) :
    Nat × Except SendError String :=
  let t := retry_on_error request 2 3
  let res : Except SendError String :=
    match t.outcome with
    | .ok r =>
      match r.operation_id with
      | some id =>
        if id = "" then .error (classifySendFailure "No operation_id in response")
        else .ok id
      | none => .error (classifySendFailure "No operation_id in response")
    | .error (some e) => .error (classifySendFailure e)
    | .error none =>
      .error (classifySendFailure "exceptions must derive from BaseException")
  (t.calls, res)

/-- C5 counterexample — a submission that fails every time with a
quota-indicating message is NOT surfaced immediately: the retry policy still
invokes it 3 times (not once) before the failure is classified as
`APIQuotaExceededError`.  The claim's "not retried further by the policy,
surfaced immediately" is false on the code. -/
theorem send_quota_retried_counterexample :
    (send_generation_request (fun _ => .error "Quota exceeded")).1 = 3 ∧
    (send_generation_request (fun _ => .error "Quota exceeded")).2
      = .error (.quotaExceeded "Quota exceeded") ∧
    (3 : Nat) ≠ 1 := by
  refine ⟨rfl, ?_, by decide⟩
  rfl

/-- C5 amended — every submission failure, quota-indicating or not, is retried
up to the attempt budget (3 invocations); after exhaustion, a failure whose
last error message indicates quota/rate-limit is surfaced as
`APIQuotaExceededError`, and every other one as a `GenerationError`. -/
theorem send_request_failure_classification (msgs : Nat → String) :
    (send_generation_request (fun k => .error (msgs k))).1 = 3 ∧
    (send_generation_request (fun k => .error (msgs k))).2
      = .error (if isQuotaMsg (msgs 2) then SendError.quotaExceeded (msgs 2)
          else SendError.generationError ("Failed to send request: " ++ msgs 2)) := by
  have hc : (retry_on_error (α := ApiResponse) (fun k => .error (msgs k)) 2 3).calls = 3 := by
    simpa using retryGo_calls_all_fail (α := ApiResponse) msgs 2 3 3 0 none
  have ho : (retry_on_error (α := ApiResponse) (fun k => .error (msgs k)) 2 3).outcome
      = .error (some (msgs 2)) := by
    simpa using retryGo_outcome_all_fail (α := ApiResponse) msgs 2 3 3 0 none (by omega)
  constructor
  · exact hc
  · show (match (retry_on_error (α := ApiResponse) (fun k => .error (msgs k)) 2 3).outcome with
      | .ok r =>
        match r.operation_id with
        | some id =>
          if id = "" then Except.error (classifySendFailure "No operation_id in response")
          else .ok id
        | none => Except.error (classifySendFailure "No operation_id in response")
      | .error (some e) => Except.error (classifySendFailure e)
      | .error none =>
        Except.error (classifySendFailure "exceptions must derive from BaseException")) = _
    rw [ho]
    simp only [classifySendFailure]

/-- Witness for the amended C5: a "rate limit reached" failure is invoked 3
times, then classified as `quotaExceeded`. -/
theorem send_request_failure_classification_witness :
    (send_generation_request (fun _ => .error "rate limit reached")).1 = 3 ∧
    (send_generation_request (fun _ => .error "rate limit reached")).2
      = .error (.quotaExceeded "rate limit reached") := by
  have h := send_request_failure_classification (fun _ => "rate limit reached")
  refine ⟨h.1, ?_⟩
  rw [h.2]
  rfl

/-! ## Polling: `TextToVideoGenerator.check_operation_status`
(text_to_video.py lines 217-305)

The loop runs while `attempt < self.max_poll_attempts` (150); each iteration
first raises `GenerationTimeoutError` if the elapsed wall-clock time exceeds
`self.timeout` (300 s), then polls; a `'failed'` status raises
`GenerationFailedError`, a `'completed'` status returns, everything else
(including an exception from the poll itself) increments `attempt` and
continues; falling off the loop raises `GenerationTimeoutError`. -/

/-- The dict returned by `_poll_operation_status` (the fields the loop
reads).  `error = none` models a dict without an `'error'` key. -/
structure StatusResponse where
  status : String
  error : Option String
  video_url : Option String
  stage : Option String
  deriving Repr, DecidableEq

inductive PollOutcome where
  | success (r : StatusResponse)
  | timeoutError (msg : String)
  | failedError (msg : String)
  deriving Repr, DecidableEq

/-- One pass of the polling `while` loop, by structural recursion on the
number of remaining attempts (`remaining = max_poll_attempts - attempt` at
every call site).  `elapsedAt k` is the wall-clock time elapsed when
iteration `k` starts; `poll k` the behaviour of `_poll_operation_status` on
its k-th invocation (`.error` = a transient exception). -/
def pollGo (poll : Nat → Except String StatusResponse) (elapsedAt : Nat → ℚ)
    (timeoutSecs : Nat) (max_poll_attempts : Nat) : Nat → Nat → PollOutcome
  | attempt, remaining + 1 =>
    if (timeoutSecs : ℚ) < elapsedAt attempt then
      .timeoutError ("Operation timed out after " ++ toString timeoutSecs ++ "s")
    else
      match poll attempt with
      | .ok r =>
        if r.status = "completed" then .success r
        else if r.status = "failed" then
          .failedError ("Generation failed: " ++ r.error.getD "Unknown error")
        else pollGo poll elapsedAt timeoutSecs max_poll_attempts (attempt + 1) remaining
      | .error _ => pollGo poll elapsedAt timeoutSecs max_poll_attempts (attempt + 1) remaining
  | _attempt, 0 =>
    .timeoutError ("Operation timed out after " ++ toString max_poll_attempts ++ " attempts")

/-- `check_operation_status` with the generator's configuration:
`timeout = 300` seconds, `max_poll_attempts = 150`. -/
def check_operation_status (poll : Nat → Except String StatusResponse)
    (elapsedAt : Nat → ℚ) : PollOutcome :=
  pollGo poll elapsedAt 300 150 0 150

theorem pollGo_nonterminal_times_out (poll : Nat → Except String StatusResponse)
    (elapsedAt : Nat → ℚ) (timeoutSecs maxA : Nat)
    (h : ∀ k r, poll k = .ok r → r.status ≠ "completed" ∧ r.status ≠ "failed") :
    ∀ remaining attempt,
      ∃ msg, pollGo poll elapsedAt timeoutSecs maxA attempt remaining
        = .timeoutError msg := by
  intro remaining
  induction remaining with
  | zero =>
    intro attempt
    exact ⟨_, rfl⟩
  | succ r ih =>
    intro attempt
    rw [pollGo]
    by_cases ht : (timeoutSecs : ℚ) < elapsedAt attempt
    · exact ⟨_, by rw [if_pos ht]⟩
    · rw [if_neg ht]
      cases hpoll : poll attempt with
      | ok resp =>
        obtain ⟨hc, hf⟩ := h attempt resp hpoll
        simp only [if_neg hc, if_neg hf]
        exact ih (attempt + 1)
      | error e =>
        exact ih (attempt + 1)

/-- C6 — A polling run in which the backend never reports a terminal
(`completed` or `failed`) status always ends in `GenerationTimeoutError`
(whether the time budget or the attempt budget is exceeded), never in
`GenerationFailedError`. -/
theorem poll_nonterminal_raises_timeout (poll : Nat → Except String StatusResponse)
    (elapsedAt : Nat → ℚ)
    (h : ∀ k r, poll k = .ok r → r.status ≠ "completed" ∧ r.status ≠ "failed") :
    ∃ msg, check_operation_status poll elapsedAt = .timeoutError msg :=
  pollGo_nonterminal_times_out poll elapsedAt 300 150 h 150 0

/-- Witness for C6: a backend stuck on `'processing'` forever, with no time
progress, times out. -/
theorem poll_nonterminal_raises_timeout_witness :
    ∃ msg, check_operation_status
      (fun _ => .ok ⟨"processing", none, none, some "Generating frames"⟩)
      (fun _ => 0) = .timeoutError msg :=
  poll_nonterminal_raises_timeout _ _
    (fun _ r hr => by cases hr; exact ⟨by decide, by decide⟩)

/-! ## Prompt templating: `SceneManager.apply_global_template`
(scene_manager.py lines 104-141)

```
if not global_template or not global_template.strip():
    return scene_prompt
scene_prompt = scene_prompt.strip()
global_template = global_template.strip()
if scene_prompt and global_template:
    if not scene_prompt[-1] in '.!?':
        scene_prompt += '.'
    combined = scene_prompt + " " + global_template
    return combined
return scene_prompt
```

Python's `str.strip()` is modelled at the character level so that every
concrete case evaluates in the kernel. -/

/-- `str.strip()`: drop leading and trailing whitespace. -/
def stripChars (l : List Char) : List Char :=
  ((l.dropWhile Char.isWhitespace).reverse.dropWhile Char.isWhitespace).reverse

def pyStrip (s : String) : String :=
  String.mk (stripChars s.data)

def apply_global_template (scene_prompt global_template : String) : String :=
  if global_template = "" ∨ pyStrip global_template = "" then scene_prompt
  else
    let sp := pyStrip scene_prompt
    let gt := pyStrip global_template
    if sp ≠ "" ∧ gt ≠ "" then
      let sp2 :=
        match sp.data.getLast? with
        | some c => if c = '.' ∨ c = '!' ∨ c = '?' then sp else sp ++ "."
        | none => sp ++ "."
      sp2 ++ " " ++ gt
    else sp

/-- The effective prompt exactly as claim C7 words it: the trimmed scene
prompt, a trailing period inserted when it is missing (i.e. when the trimmed
prompt does not end in a period), followed by the template (trimmed, after a
space, as in the claim's concrete example). -/
def claim_effective_prompt (scene_prompt global_template : String) : String :=
  let sp := pyStrip scene_prompt
  (if sp.data.getLast? = some '.' then sp else sp ++ ".") ++ " " ++ pyStrip global_template

/-- C7 counterexample — the code deviates from the claim's formula on two
concrete inputs: a whitespace-only scene prompt yields `""` (the stripped
prompt), not a period-plus-template; and a prompt ending in `'!'` (where a
trailing period is missing) gets no period inserted, because the code treats
`'!'` and `'?'` as terminal punctuation too. -/
theorem apply_template_claim_counterexample :
    apply_global_template "   " "cinematic, 35mm" = "" ∧
    claim_effective_prompt "   " "cinematic, 35mm" = ". cinematic, 35mm" ∧
    apply_global_template "Wow!" "cinematic, 35mm" = "Wow! cinematic, 35mm" ∧
    claim_effective_prompt "Wow!" "cinematic, 35mm" = "Wow!. cinematic, 35mm" ∧
    apply_global_template "   " "cinematic, 35mm"
      ≠ claim_effective_prompt "   " "cinematic, 35mm" ∧
    apply_global_template "Wow!" "cinematic, 35mm"
      ≠ claim_effective_prompt "Wow!" "cinematic, 35mm" := by
  refine ⟨rfl, rfl, rfl, rfl, by decide, by decide⟩

/-- The effective prompt as amended: for a scene prompt with non-whitespace
content, the trimmed prompt gets a trailing period inserted only when it does
not already end in `'.'`, `'!'` or `'?'`, then a space and the trimmed
template; a whitespace-only scene prompt yields the empty string. -/
def amended_effective_prompt (scene_prompt global_template : String) : String :=
  let sp := pyStrip scene_prompt
  if sp = "" then ""
  else
    (if sp.data.getLast? = some '.' ∨ sp.data.getLast? = some '!'
        ∨ sp.data.getLast? = some '?' then sp else sp ++ ".")
      ++ " " ++ pyStrip global_template

/-- C7 amended — for every scene prompt and every non-whitespace template the
code computes `amended_effective_prompt`, and an empty or whitespace-only
template leaves the scene prompt unchanged. -/
theorem apply_template_amended (p t : String) :
    (pyStrip t ≠ "" → apply_global_template p t = amended_effective_prompt p t) ∧
    (pyStrip t = "" → apply_global_template p t = p) := by
  constructor
  · intro ht
    have ht0 : t ≠ "" := by
      intro h0
      rw [h0] at ht
      exact ht rfl
    rw [apply_global_template, if_neg (by push_neg; exact ⟨ht0, ht⟩)]
    rw [amended_effective_prompt]
    by_cases hp : pyStrip p = ""
    · rw [if_neg (by simp [hp]), if_pos hp]
      exact hp
    · rw [if_pos ⟨hp, ht⟩, if_neg hp]
      cases hlast : (pyStrip p).data.getLast? with
      | none => simp [hlast]
      | some c => simp [hlast]
  · intro ht
    rw [apply_global_template, if_pos (Or.inr ht)]

/-- Witness for the amended C7, which is also the claim's own concrete
scenario: scene prompt `"A city at night"` with template `"cinematic, 35mm"`
yields exactly `"A city at night. cinematic, 35mm"`. -/
theorem apply_template_amended_witness :
    pyStrip "cinematic, 35mm" ≠ "" ∧
    apply_global_template "A city at night" "cinematic, 35mm"
      = "A city at night. cinematic, 35mm" := by
  refine ⟨by decide, ?_⟩
  have h := (apply_template_amended "A city at night" "cinematic, 35mm").1 (by decide)
  rw [h]
  rfl

/-! ## Scene sequence: `SceneManager.generate_scene_sequence`
(scene_manager.py lines 316-451) and the chaining decision of
`generate_single_scene` (lines 189-229)

The loop keeps `previous_video_path`, initially `None`; each scene is run
inside `try/except`; a result with `status == 'success'` updates
`previous_video_path` to its `video_path`, a failing result or a raised
exception leaves it unchanged and appends an `'error'` record; exactly one
record is appended per scene.

A scene's run is abstracted by its observable behaviour: `success path`
(`generate_single_scene` returned a success dict), `failure err` (it
returned an error dict — it catches its own exceptions, so this also covers
failures inside generation), or `raises exc` (an exception escaped into the
sequence loop's `except` branch, e.g. from template application).  The
`scene_index` recorded in a result mirrors the loop index, which callers
store in `scene_data['scene_index']`. -/

inductive SceneBehavior where
  | success (video_path : String)
  | failure (error : String)
  | raises (exc : String)
  deriving Repr, DecidableEq

structure SceneResult where
  status : String
  video_path : Option String
  error : Option String
  scene_index : Nat
  deriving Repr, DecidableEq

/-- The record appended to `results` for scene `i`. -/
def seqStep (i : Nat) : SceneBehavior → SceneResult
  | .success p => ⟨"success", some p, none, i⟩
  | .failure e => ⟨"error", none, some e, i⟩
  | .raises e => ⟨"error", none, some e, i⟩

/-- `previous_video_path` after one scene: updated only on success. -/
def chainUpdate (prev : Option String) : SceneBehavior → Option String
  | .success p => some p
  | _ => prev

/-- One scene of the sequence loop together with the `previous_video_path`
argument that was passed to `generate_single_scene` for it. -/
structure SceneRun where
  previous_video_path : Option String
  result : SceneResult
  deriving Repr, DecidableEq

def seqGo (i : Nat) (prev : Option String) : List SceneBehavior → List SceneRun
  | [] => []
  | b :: rest => ⟨prev, seqStep i b⟩ :: seqGo (i + 1) (chainUpdate prev b) rest

/-- `generate_scene_sequence`: the returned list of per-scene results. -/
def generate_scene_sequence (behaviors : List SceneBehavior) : List SceneResult :=
  (seqGo 0 none behaviors).map (·.result)

/-- The chaining decision of `generate_single_scene`: the video whose last
frame becomes the next scene's first frame.  `None` means plain text-to-video
(or explicit transition mode) — no chain source. -/
def chain_source (scene_index : Nat) (use_previous_frame extend_from_previous : Bool)
    (previous_video_path : Option String) : Option String :=
  if 0 < scene_index then
    match previous_video_path with
    | some prev =>
      if use_previous_frame || extend_from_previous then some prev else none
    | none => none
  else none

/-- `previous_video_path` after folding a list of scene behaviours. -/
def prevFrom (prev : Option String) (behaviors : List SceneBehavior) : Option String :=
  behaviors.foldl chainUpdate prev

/-- Spec-side notion: the output of the most recent successfully generated
scene in the list, if any. -/
def lastSuccessOutput : List SceneBehavior → Option String
  | [] => none
  | b :: rest =>
    match lastSuccessOutput rest with
    | some p => some p
    | none =>
      match b with
      | .success p => some p
      | _ => none

theorem seqGo_length (behaviors : List SceneBehavior) :
    ∀ i prev, (seqGo i prev behaviors).length = behaviors.length := by
  induction behaviors with
  | nil => intro i prev; rfl
  | cons b t ih =>
    intro i prev
    simp [seqGo, ih]

theorem seqGo_getElem? (behaviors : List SceneBehavior) :
    ∀ (i0 : Nat) (prev : Option String) (i : Nat),
      (seqGo i0 prev behaviors)[i]? = (behaviors[i]?).map (fun b =>
        ⟨prevFrom prev (behaviors.take i), seqStep (i0 + i) b⟩) := by
  induction behaviors with
  | nil => intro i0 prev i; simp [seqGo]
  | cons b t ih =>
    intro i0 prev i
    cases i with
    | zero => simp [seqGo, prevFrom]
    | succ j =>
      simp only [seqGo, List.getElem?_cons_succ, List.take_succ_cons]
      rw [ih (i0 + 1) (chainUpdate prev b) j]
      have harith : i0 + 1 + j = i0 + (j + 1) := by omega
      simp [prevFrom, harith]

theorem prevFrom_lastSuccess (behaviors : List SceneBehavior) :
    ∀ prev, prevFrom prev behaviors
      = match lastSuccessOutput behaviors with
        | some p => some p
        | none => prev := by
  induction behaviors with
  | nil => intro prev; rfl
  | cons b t ih =>
    intro prev
    show prevFrom (chainUpdate prev b) t = _
    rw [ih (chainUpdate prev b)]
    cases hls : lastSuccessOutput t with
    | some p => simp [lastSuccessOutput, hls]
    | none => cases b <;> simp [lastSuccessOutput, hls, chainUpdate]

theorem prevFrom_none (behaviors : List SceneBehavior) :
    prevFrom none behaviors = lastSuccessOutput behaviors := by
  rw [prevFrom_lastSuccess]
  cases lastSuccessOutput behaviors <;> rfl

/-- C1 — `generate_scene_sequence` returns exactly one outcome per input
scene, in scene-index order; each outcome's status is `'success'` or
`'error'`, `'success'` exactly for the scenes whose generation succeeded; and
(never raising past a scene's boundary) a run in which every scene fails
still returns the full list of failure outcomes. -/
theorem scene_sequence_one_outcome_per_scene (behaviors : List SceneBehavior) :
    (generate_scene_sequence behaviors).length = behaviors.length ∧
    (∀ (i : Nat) (r : SceneResult), (generate_scene_sequence behaviors)[i]? = some r →
      r.scene_index = i ∧ (r.status = "success" ∨ r.status = "error") ∧
      (r.status = "success" ↔ ∃ p, behaviors[i]? = some (SceneBehavior.success p))) ∧
    ((∀ b ∈ behaviors, ∀ p, b ≠ SceneBehavior.success p) →
      ∀ r ∈ generate_scene_sequence behaviors, r.status = "error") := by
  have hidx : ∀ (i : Nat) (r : SceneResult),
      (generate_scene_sequence behaviors)[i]? = some r →
      r.scene_index = i ∧ (r.status = "success" ∨ r.status = "error") ∧
      (r.status = "success" ↔ ∃ p, behaviors[i]? = some (SceneBehavior.success p)) := by
    intro i r hr
    rw [generate_scene_sequence, List.getElem?_map, seqGo_getElem?] at hr
    cases hb : behaviors[i]? with
    | none => rw [hb] at hr; simp at hr
    | some b =>
      rw [hb] at hr
      have hr' : r = seqStep i b := by
        simp at hr
        exact hr.symm
      subst hr'
      cases b <;> simp [seqStep, hb]
  refine ⟨?_, hidx, ?_⟩
  · simp [generate_scene_sequence, seqGo_length]
  · intro hfail r hrmem
    obtain ⟨i, hi⟩ := List.mem_iff_getElem?.mp hrmem
    rcases hidx i r hi with ⟨_, hstat, hiff⟩
    rcases hstat with hs | he
    · exfalso
      obtain ⟨p, hp⟩ := hiff.mp hs
      exact hfail _ (List.getElem?_mem hp) p rfl
    · exact he

/-- Witness for C1: a two-scene run in which the first scene fails inside
generation and the second raises into the sequence loop still returns two
`'error'` outcomes instead of raising. -/
theorem scene_sequence_one_outcome_per_scene_witness :
    (generate_scene_sequence
      [SceneBehavior.failure "e1", SceneBehavior.raises "e2"]).length = 2 ∧
    ∀ r ∈ generate_scene_sequence [SceneBehavior.failure "e1", SceneBehavior.raises "e2"],
      r.status = "error" := by
  have h := scene_sequence_one_outcome_per_scene
    [SceneBehavior.failure "e1", SceneBehavior.raises "e2"]
  refine ⟨h.1, h.2.2 ?_⟩
  intro b hb p
  fin_cases hb <;> simp

/-- C2 — the `previous_video_path` handed to scene `i` is always the output
of the most recent successfully generated scene before `i` (failed scenes are
never used as a chain source). -/
theorem scene_chain_anchor (behaviors : List SceneBehavior) :
    ∀ (i : Nat) (run : SceneRun), (seqGo 0 none behaviors)[i]? = some run →
      run.previous_video_path = lastSuccessOutput (behaviors.take i) := by
  intro i run h
  rw [seqGo_getElem?] at h
  cases hb : behaviors[i]? with
  | none => rw [hb] at h; simp at h
  | some b =>
    rw [hb] at h
    have h' : run = ⟨prevFrom none (behaviors.take i), seqStep i b⟩ := by
      simp at h
      exact h.symm
    rw [h', prevFrom_none]

/-- Witness for C2, the claim's own scenario: scenes
`[A succeeds, B fails, C]` — the chain anchor handed to `C` is `A`'s output,
and with `usePreviousFrame` set, `C`'s chain source resolves to `A`'s
output. -/
theorem scene_chain_anchor_witness :
    ∃ run : SceneRun,
      (seqGo 0 none [SceneBehavior.success "A.mp4", SceneBehavior.failure "boom",
        SceneBehavior.success "C.mp4"])[2]? = some run ∧
      run.previous_video_path = some "A.mp4" ∧
      chain_source 2 true false run.previous_video_path = some "A.mp4" := by
  refine ⟨⟨some "A.mp4", seqStep 2 (SceneBehavior.success "C.mp4")⟩, rfl, ?_, rfl⟩
  have h := scene_chain_anchor
    [SceneBehavior.success "A.mp4", SceneBehavior.failure "boom",
      SceneBehavior.success "C.mp4"] 2
    ⟨some "A.mp4", seqStep 2 (SceneBehavior.success "C.mp4")⟩ rfl
  rw [h]
  rfl

/-! ## Media post-processing: `VideoMerger` (src/utils/video_merger.py)

`extract_last_frame` (lines 460-534) probes the duration and seeks to
`max(0, duration - 0.1)`; `SceneManager.extract_last_frame`
(scene_manager.py lines 472-563) computes the identical expression.
`validate_videos_compatible` (lines 697-753; duplicated in
scene_manager.py lines 885-923) probes every input and compares each
against the FIRST input's resolution and frame rate. -/

/-- The `-ss` seek timestamp requested by `extract_last_frame`:
`max(0, duration - 0.1)`. -/
def extract_last_frame_timestamp (duration : ℚ) : ℚ :=
  max 0 (duration - 1/10)

/-- C8 — for every probed duration `d ≥ 0` the requested timestamp lies in
`[0, d]`. -/
theorem extract_last_frame_timestamp_bounds (d : ℚ) (h : 0 ≤ d) :
    0 ≤ extract_last_frame_timestamp d ∧ extract_last_frame_timestamp d ≤ d := by
  constructor
  · exact le_max_left 0 _
  · apply max_le h
    linarith

/-- Witness for C8 at the claim's boundary case: a 0.05-second video requests
timestamp 0, not a negative value. -/
theorem extract_last_frame_timestamp_bounds_witness :
    (0 : ℚ) ≤ 1/20 ∧
    (0 ≤ extract_last_frame_timestamp (1/20) ∧
      extract_last_frame_timestamp (1/20) ≤ 1/20) ∧
    extract_last_frame_timestamp (1/20) = 0 := by
  refine ⟨by norm_num, extract_last_frame_timestamp_bounds (1/20) (by norm_num), ?_⟩
  show max 0 (1/20 - 1/10 : ℚ) = 0
  norm_num

/-- The metadata `get_video_info` returns for one clip (the fields
`validate_videos_compatible` reads). -/
structure VideoInfo where
  width : Nat
  height : Nat
  fps : ℚ
  codec : String
  deriving Repr, DecidableEq

/-- `validate_videos_compatible`, over the probed metadata of the inputs:
fewer than two inputs are trivially compatible; otherwise every input's
resolution must equal the first input's, and every input's frame rate must be
within 0.1 fps of the first input's; codecs are compared only for a log
message and never fail validation. -/
def validate_videos_compatible (infos : List VideoInfo) : Bool :=
  if infos.length < 2 then true
  else
    match infos with
    | [] => true
    | first :: _ =>
      if infos.all (fun i => i.width == first.width && i.height == first.height) then
        if infos.all (fun i => decide (|i.fps - first.fps| < 1/10)) then true
        else false
      else false

/-- C9 counterexample — three clips of identical resolution and codec with
frame rates 30, 29.91 and 30.09 fps: the last two differ pairwise by
0.18 fps (more than 0.1), yet validation passes, because the code only ever
compares each clip against the FIRST clip's frame rate. -/
theorem validate_pairwise_fps_counterexample :
    validate_videos_compatible
      [⟨1280, 720, 30, "h264"⟩, ⟨1280, 720, 2991/100, "h264"⟩,
        ⟨1280, 720, 3009/100, "h264"⟩] = true ∧
    |(3009/100 : ℚ) - 2991/100| > 1/10 := by
  constructor
  · simp [validate_videos_compatible, List.all_cons, abs_sub_lt_iff]
    norm_num
  · rw [show (3009/100 : ℚ) - 2991/100 = 9/50 by norm_num,
      abs_of_pos (by norm_num : (0:ℚ) < 9/50)]
    norm_num

/-- C9 amended — validation fails exactly when some input's resolution
differs from the first input's or some input's frame rate differs from the
first input's by at least 0.1 fps; codec differences never fail it (and two
non-first inputs may pairwise differ by up to 0.2 fps while validation
passes). -/
theorem validate_compatible_first_anchored (first : VideoInfo)
    (rest : List VideoInfo) :
    validate_videos_compatible (first :: rest) = true ↔
      ∀ i ∈ rest, i.width = first.width ∧ i.height = first.height ∧
        |i.fps - first.fps| < 1/10 := by
  cases rest with
  | nil => simp [validate_videos_compatible]
  | cons b t =>
    rw [validate_videos_compatible]
    rw [if_neg (by simp)]
    constructor
    · intro h i hi
      by_cases hres : (first :: b :: t).all
          (fun i => i.width == first.width && i.height == first.height)
      · rw [if_pos hres] at h
        by_cases hfps : (first :: b :: t).all
            (fun i => decide (|i.fps - first.fps| < 1/10))
        · simp only [List.all_eq_true, Bool.and_eq_true, beq_iff_eq] at hres hfps
          obtain ⟨hw, hh⟩ := hres i (List.mem_cons_of_mem first hi)
          have hf := hfps i (List.mem_cons_of_mem first hi)
          rw [decide_eq_true_iff] at hf
          exact ⟨hw, hh, hf⟩
        · rw [if_neg hfps] at h
          exact absurd h (by simp)
      · rw [if_neg hres] at h
        exact absurd h (by simp)
    · intro h
      have hres : (first :: b :: t).all
          (fun i => i.width == first.width && i.height == first.height) := by
        simp only [List.all_eq_true, Bool.and_eq_true, beq_iff_eq]
        intro i hi
        rcases List.mem_cons.mp hi with rfl | hi'
        · exact ⟨rfl, rfl⟩
        · exact ⟨(h i hi').1, (h i hi').2.1⟩
      have hfps : (first :: b :: t).all
          (fun i => decide (|i.fps - first.fps| < 1/10)) := by
        simp only [List.all_eq_true, decide_eq_true_iff]
        intro i hi
        rcases List.mem_cons.mp hi with rfl | hi'
        · simp
        · exact (h i hi').2.2
      rw [if_pos hres, if_pos hfps]

/-- Witness for the amended C9: two clips differing only in codec pass
validation; two clips differing in resolution (1280×720 vs 1920×1080) fail
it. -/
theorem validate_compatible_first_anchored_witness :
    validate_videos_compatible
      [⟨1920, 1080, 30, "h264"⟩, ⟨1920, 1080, 30, "hevc"⟩] = true ∧
    validate_videos_compatible
      [⟨1280, 720, 30, "h264"⟩, ⟨1920, 1080, 30, "h264"⟩] = false := by
  constructor
  · refine (validate_compatible_first_anchored ⟨1920, 1080, 30, "h264"⟩
      [⟨1920, 1080, 30, "hevc"⟩]).mpr ?_
    intro i hi
    fin_cases hi
    exact ⟨rfl, rfl, by norm_num⟩
  · simp [validate_videos_compatible, List.all_cons]
